import Mathlib

/-!
Verification of the session / command-protocol core of `execution-ws.service.ts`.

The service keeps a process-wide map from session ids to container handles
(`sessionContainers : Map<string, Docker.Container>`), provisions containers
(`startInteractiveSession`), and delivers protocol records to an in-container
listener by running `sh -c` one-shot commands of the shape
`echo "<payload>" > /commandListener/commands.txt` (overwrite) or
`echo "<payload>" >> /commandListener/commands.txt` (append).

The embedding below models:
* the registry (a JavaScript `Map` as an association list, `set` replacing in
  place, `get` returning an `Option`);
* `startPythonSession`'s control flow around a possibly failing provisioning
  step (JavaScript exception propagation as `Except`);
* the container-creation options object passed to the engine;
* the command strings the service interpolates, and a small executable model
  of the POSIX-shell fragment they live in (word splitting, double quotes,
  `>` / `>>` redirection, `echo`): `runShell` refuses (returns `none`) on any
  construct outside this fragment instead of guessing.
-/

namespace ExecutionWs

/-- A container handle is an opaque reference obtained from the engine; the
service only stores and retrieves it. -/
abbrev Registry (α : Type) := List (String × α)

/-- JavaScript `Map.get`: the value bound to the key, if any. -/
def mapGet {α : Type} : Registry α → String → Option α
  | [], _ => none
  | (k, v) :: rest, id => if k == id then some v else mapGet rest id

/-- JavaScript `Map.set`: bind the key, replacing an existing binding in
place; `set` never fails and never preserves a previous value. -/
def mapSet {α : Type} : Registry α → String → α → Registry α
  | [], id, c => [(id, c)]
  | (k, v) :: rest, id, c => if k == id then (k, c) :: rest else (k, v) :: mapSet rest id c

/-- `registerContainer(sessionId, container)` from the source:
`this.sessionContainers.set(sessionId, container)`. -/
def registerContainer {α : Type} (r : Registry α) (sessionId : String) (container : α) :
    Registry α :=
  mapSet r sessionId container

/-- `getContainer(sessionId)` from the source:
`this.sessionContainers.get(sessionId)` (returns `undefined`, modelled as
`none`, when the id is not bound). -/
def getContainer {α : Type} (r : Registry α) (sessionId : String) : Option α :=
  mapGet r sessionId

/-- `startPythonSession` from the source, with the provisioning step
(`await this.startInteractiveSession(...)`) abstracted by its outcome: on an
engine failure the JavaScript `await` rethrows, so `registerContainer` is
never reached and the error propagates to the caller; on success the
container is registered and the session id returned.  The first component is
what the caller sees, the second the registry afterwards. -/
def startPythonSession {α : Type} (r : Registry α) (sessionId : String)
    (provisioned : Except String α) : Except String String × Registry α :=
  match provisioned with
  | .error e => (.error e, r)
  | .ok container => (.ok sessionId, registerContainer r sessionId container)

/-! ## Engine request built by `startInteractiveSession` -/

structure HostConfigOptions where
  Runtime : String
deriving DecidableEq

/-- The options object `startInteractiveSession` passes to
`docker.createContainer` — exactly the fields that appear in the source. -/
structure CreateContainerOptions where
  Image : String
  Cmd : List String
  Tty : Bool
  OpenStdin : Bool
  AttachStdin : Bool
  AttachStdout : Bool
  AttachStderr : Bool
  WorkingDir : String
  HostConfig : HostConfigOptions
deriving DecidableEq

/-- `startInteractiveSession(image, tempDir)` builds this request for the
engine, where `runtime` is the service's configured Docker runtime.  The
source passes exactly these fields; in particular it contains no
`Binds`/`Mounts`/`Volumes` entry and never mentions `tempDir`. -/
def startInteractiveSessionOptions (runtime image tempDir : String) : CreateContainerOptions :=
  { Image := image
    Cmd := ["node", "/commandListener/commandListener.js"]
    Tty := true
    OpenStdin := true
    AttachStdin := true
    AttachStdout := true
    AttachStderr := true
    WorkingDir := "/commandListener"
    HostConfig := { Runtime := runtime } }

/-! ## The shell fragment the service's one-shot commands live in

Every command record is delivered by `sh -c` running a line of the shape
`echo "<payload>" > /commandListener/commands.txt` (or `>>`).  The model
below executes exactly this fragment of POSIX shell — word splitting on
unquoted spaces, double quotes, `>` / `>>` redirection, `echo` joining its
arguments with single spaces and appending a newline — and returns `none`
for any construct outside the fragment (expansions, escapes, unterminated
quotes, several redirections) instead of guessing their semantics. -/

/-- The fixed control-file path, as a character list. -/
def ctrlChars : List Char := "/commandListener/commands.txt".data

def echoChars : List Char := "echo".data

/-- Characters the model allows inside a double-quoted shell string:
anything except the closing quote and the characters the shell still
interprets there (dollar, backslash, backquote — code 96). -/
def quotedChar (c : Char) : Bool :=
  !(c == '"') && !(c == '$') && !(c == '\\') && !(c.toNat == 96)

/-- Characters that form plain unquoted word material in the modelled
fragment: no whitespace, quoting, redirection, expansion, globbing or
control operators. -/
def plainChar (c : Char) : Bool :=
  !(c == ' ') && !(c == '"') && !(c == '>') && !(c == '\n') && !(c == '$') &&
    !(c == '\\') && !(c.toNat == 96) && !(c == ';') && !(c == '|') && !(c == '&') &&
    !(c == '<') && !(c == '(') && !(c == ')') && !(c == '*') && !(c == '?') &&
    !(c == '~') && !(c.toNat == 39)

inductive Tok where
  | word : List Char → Tok
  | redir : Bool → Tok
deriving DecidableEq

/-- Flush a pending word accumulator into a token list. -/
def flushTok : Option (List Char) → List Tok
  | none => []
  | some w => [Tok.word w]

/-- One-pass tokenizer for the fragment: `inQ` says whether we are inside
double quotes, the accumulator is the word being built (`some []` after an
empty quoted string).  `none` on an unterminated quote or any character
outside the fragment. -/
def tokenizeAux : Bool → Option (List Char) → List Char → Option (List Tok)
  | true, _, [] => none
  | false, acc, [] => some (flushTok acc)
  | true, acc, c :: cs =>
    if c == '"' then tokenizeAux false acc cs
    else if quotedChar c then tokenizeAux true (some (acc.getD [] ++ [c])) cs
    else none
  | false, acc, '>' :: '>' :: cs2 =>
    Option.map (fun ts => flushTok acc ++ Tok.redir true :: ts) (tokenizeAux false none cs2)
  | false, acc, '>' :: cs =>
    Option.map (fun ts => flushTok acc ++ Tok.redir false :: ts) (tokenizeAux false none cs)
  | false, acc, c :: cs =>
    if c == '"' then tokenizeAux true (some (acc.getD [])) cs
    else if c == ' ' then
      Option.map (fun ts => flushTok acc ++ ts) (tokenizeAux false none cs)
    else if plainChar c then tokenizeAux false (some (acc.getD [] ++ [c])) cs
    else none

/-- Split a token list into argument words and at most one redirection
(`true` = append) with its target word; `none` if redirections do not occur
in exactly the supported shape. -/
def splitToks : List Tok → Option (List (List Char) × Option (Bool × List Char))
  | [] => some ([], none)
  | Tok.word w :: rest =>
    match splitToks rest with
    | some (ws, r) => some (w :: ws, r)
    | none => none
  | Tok.redir b :: Tok.word t :: rest =>
    match splitToks rest with
    | some (ws, none) => some (ws, some (b, t))
    | _ => none
  | Tok.redir _ :: _ => none

/-- `echo` joins its arguments with single spaces. -/
def joinSpace : List (List Char) → List Char
  | [] => []
  | [w] => w
  | w :: ws => w ++ ' ' :: joinSpace ws

/-- `echo` output: the joined arguments followed by a newline. -/
def echoOut (args : List (List Char)) : List Char := joinSpace args ++ ['\n']

/-- Run one `sh -c` command line against the current contents of the
control file.  An `echo` redirected with `>` replaces the file, with `>>`
appends to it; output redirected elsewhere (or not redirected) leaves the
control file unchanged; anything outside the fragment is `none`. -/
def runShell (file : String) (cmdline : String) : Option String :=
  match tokenizeAux false none cmdline.data with
  | none => none
  | some (Tok.word e :: rest) =>
    if e = echoChars then
      match splitToks rest with
      | none => none
      | some (_, none) => some file
      | some (args, some (app, target)) =>
        if target = ctrlChars then
          if app then some (file ++ String.mk (echoOut args))
          else some (String.mk (echoOut args))
        else some file
    else none
  | some _ => none

/-- Deliver a sequence of one-shot command lines in order, starting from
the given control-file contents. -/
def runSession (file : String) : List String → Option String
  | [] => some file
  | c :: cs =>
    match runShell file c with
    | none => none
    | some f2 => runSession f2 cs

/-! ## The command lines the service interpolates -/

/-- `upsertFiles`: the accumulated command string, built by
`commandString += upsert ${filename} ${content}\n` over the entries of the
`files` object in order (`Object.entries` preserves string-key insertion
order, so the mapping is a list of pairs here). -/
def upsertCommandString (files : List (String × String)) : String :=
  files.foldl (fun acc fc => acc ++ "upsert " ++ fc.1 ++ " " ++ fc.2 ++ "\n") ""

/-- `upsertFiles`: the single shell line,
`echo "${commandString}" > /commandListener/commands.txt`. -/
def upsertCmdline (files : List (String × String)) : String :=
  "echo \"" ++ upsertCommandString files ++ "\" > /commandListener/commands.txt"

/-- `upsertFiles` hands the engine exactly one exec; its `Cmd` array. -/
def upsertFilesExec (files : List (String × String)) : List String :=
  ["sh", "-c", upsertCmdline files]

/-- `startProgram`: `echo "run" > /commandListener/commands.txt`. -/
def startProgramCmdline : String := "echo \"run\" > /commandListener/commands.txt"

/-- `sendInput`: `command = input ${input}` delivered by
`echo "${command}" >> /commandListener/commands.txt`. -/
def sendInputCmdline (input : String) : String :=
  "echo \"input " ++ input ++ "\" >> /commandListener/commands.txt"

/-- `sendInput` hands the engine exactly one exec; its `Cmd` array. -/
def sendInputExec (input : String) : List String :=
  ["sh", "-c", sendInputCmdline input]

/-- A string is taken verbatim inside the service's double quotes iff every
character is literal there. -/
def shellSafe (s : String) : Bool := s.data.all quotedChar

/-! ## Reading the control file as protocol records -/

/-- Split file contents into newline-delimited records; a trailing fragment
not ending in a newline counts as a (partial) record. -/
def splitLinesAux (cur : List Char) : List Char → List (List Char)
  | [] => if cur = [] then [] else [cur.reverse]
  | c :: cs =>
    if c == '\n' then cur.reverse :: splitLinesAux [] cs else splitLinesAux (c :: cur) cs

/-- The sequence of records a listener reading the control file sees. -/
def records (s : String) : List String := (splitLinesAux [] s.data).map String.mk

/-! ## Helper lemmas -/

theorem mapGet_mapSet_self {α : Type} (r : Registry α) (id : String) (c : α) :
    mapGet (mapSet r id c) id = some c := by
  induction r with
  | nil => simp [mapSet, mapGet]
  | cons kv rest ih =>
    obtain ⟨k, v⟩ := kv
    by_cases h : k == id
    · simp [mapSet, mapGet, h]
    · simp only [mapSet, mapGet, h, Bool.false_eq_true, if_false]
      exact ih

theorem mapGet_eq_none_of_not_mem {α : Type} (r : Registry α) (id : String)
    (h : id ∉ r.map Prod.fst) : mapGet r id = none := by
  induction r with
  | nil => rfl
  | cons kv rest ih =>
    obtain ⟨k, v⟩ := kv
    simp only [List.map_cons, List.mem_cons] at h
    push_neg at h
    have hk : (k == id) = false := by
      simp only [beq_eq_false_iff_ne, ne_eq]
      exact fun hkid => h.1 hkid.symm
    simp only [mapGet, hk, Bool.false_eq_true, if_false]
    exact ih h.2

theorem quotedChar_beq_quote {c : Char} (h : quotedChar c = true) : (c == '"') = false := by
  cases hq : (c == '"') with
  | false => rfl
  | true => rw [quotedChar, hq] at h; simp at h

theorem string_foldl_join (l : List String) : ∀ acc : String,
    l.foldl (fun r t => r ++ t) acc = acc ++ String.join l := by
  induction l with
  | nil =>
    intro acc
    show acc = acc ++ String.join []
    rw [show String.join ([] : List String) = "" from rfl, String.append_empty]
  | cons t l ih =>
    intro acc
    rw [List.foldl_cons, ih (acc ++ t)]
    have hj : String.join (t :: l) = t ++ String.join l := by
      show (t :: l).foldl (fun r u => r ++ u) "" = t ++ String.join l
      rw [List.foldl_cons, ih ("" ++ t), String.empty_append]
    rw [hj, String.append_assoc]

theorem upsertCommandString_eq_join (files : List (String × String)) :
    upsertCommandString files =
      String.join (files.map fun fc => "upsert " ++ fc.1 ++ " " ++ fc.2 ++ "\n") := by
  have hfun : (fun (acc : String) (fc : String × String) =>
      acc ++ "upsert " ++ fc.1 ++ " " ++ fc.2 ++ "\n") =
      fun acc fc => acc ++ ("upsert " ++ fc.1 ++ " " ++ fc.2 ++ "\n") := by
    funext acc fc
    simp [String.append_assoc]
  rw [upsertCommandString, hfun, ← List.foldl_map, string_foldl_join, String.empty_append]

theorem tokenizeAux_quoted_run (p : List Char) :
    p.all quotedChar = true → ∀ (acc rest : List Char),
      tokenizeAux true (some acc) (p ++ rest) = tokenizeAux true (some (acc ++ p)) rest := by
  induction p with
  | nil => intro _ acc rest; simp
  | cons c p ih =>
    intro hp acc rest
    simp only [List.all_cons, Bool.and_eq_true] at hp
    have hq := quotedChar_beq_quote hp.1
    simp only [List.cons_append, tokenizeAux, hq, Bool.false_eq_true, if_false, hp.1, if_true,
      Option.getD_some]
    have h2 := ih hp.2 (acc ++ [c]) rest
    rw [List.append_assoc] at h2
    exact h2

theorem tokenizeAux_echo_open (xs : List Char) :
    tokenizeAux false none ('e' :: 'c' :: 'h' :: 'o' :: ' ' :: '"' :: xs) =
      Option.map (fun ts => Tok.word echoChars :: ts) (tokenizeAux true (some []) xs) := rfl

theorem tokenizeAux_close_over (p : List Char) :
    tokenizeAux true (some p) ('"' :: ' ' :: '>' :: ' ' :: ctrlChars) =
      some [Tok.word p, Tok.redir false, Tok.word ctrlChars] := rfl

theorem tokenizeAux_close_app (p : List Char) :
    tokenizeAux true (some p) ('"' :: ' ' :: '>' :: '>' :: ' ' :: ctrlChars) =
      some [Tok.word p, Tok.redir true, Tok.word ctrlChars] := rfl

theorem tokenize_echo_over (s : String) (hs : shellSafe s = true) :
    tokenizeAux false none ("echo \"" ++ s ++ "\" > /commandListener/commands.txt").data =
      some [Tok.word echoChars, Tok.word s.data, Tok.redir false, Tok.word ctrlChars] := by
  have hdata : ("echo \"" ++ s ++ "\" > /commandListener/commands.txt").data =
      'e' :: 'c' :: 'h' :: 'o' :: ' ' :: '"' ::
        (s.data ++ ('"' :: ' ' :: '>' :: ' ' :: ctrlChars)) := by
    rw [String.data_append, String.data_append]; rfl
  rw [hdata, tokenizeAux_echo_open, tokenizeAux_quoted_run s.data hs [] _]
  rw [show ([] : List Char) ++ s.data = s.data from rfl, tokenizeAux_close_over]
  rfl

theorem tokenize_echo_app (s : String) (hs : shellSafe s = true) :
    tokenizeAux false none ("echo \"" ++ s ++ "\" >> /commandListener/commands.txt").data =
      some [Tok.word echoChars, Tok.word s.data, Tok.redir true, Tok.word ctrlChars] := by
  have hdata : ("echo \"" ++ s ++ "\" >> /commandListener/commands.txt").data =
      'e' :: 'c' :: 'h' :: 'o' :: ' ' :: '"' ::
        (s.data ++ ('"' :: ' ' :: '>' :: '>' :: ' ' :: ctrlChars)) := by
    rw [String.data_append, String.data_append]; rfl
  rw [hdata, tokenizeAux_echo_open, tokenizeAux_quoted_run s.data hs [] _]
  rw [show ([] : List Char) ++ s.data = s.data from rfl, tokenizeAux_close_app]
  rfl

theorem runShell_overwrite (file s : String) (hs : shellSafe s = true) :
    runShell file ("echo \"" ++ s ++ "\" > /commandListener/commands.txt") = some (s ++ "\n") := by
  unfold runShell
  rw [tokenize_echo_over s hs]
  rfl

theorem runShell_append (file s : String) (hs : shellSafe s = true) :
    runShell file ("echo \"" ++ s ++ "\" >> /commandListener/commands.txt") =
      some (file ++ (s ++ "\n")) := by
  unfold runShell
  rw [tokenize_echo_app s hs]
  rfl

theorem sendInputCmdline_shape (input : String) :
    sendInputCmdline input =
      "echo \"" ++ ("input " ++ input) ++ "\" >> /commandListener/commands.txt" := by
  have h1 : ("echo \"input " : String) ++ input = "echo \"" ++ ("input " ++ input) := by
    rw [← String.append_assoc]
    rfl
  exact congrArg (fun t => t ++ "\" >> /commandListener/commands.txt") h1

theorem splitLinesAux_no_newline (zs : List Char) :
    '\n' ∉ zs → ∀ cur : List Char, splitLinesAux cur (zs ++ ['\n']) = [cur.reverse ++ zs] := by
  induction zs with
  | nil => intro _ cur; simp [splitLinesAux]
  | cons c zs ih =>
    intro h cur
    simp only [List.mem_cons, not_or] at h
    have hc : (c == '\n') = false := by
      simp only [beq_eq_false_iff_ne, ne_eq]
      exact fun e => h.1 e.symm
    simp only [List.cons_append, splitLinesAux, hc, Bool.false_eq_true, if_false]
    have h2 := ih h.2 (c :: cur)
    rw [List.reverse_cons, List.append_assoc] at h2
    exact h2

theorem records_single (s : String) (h : '\n' ∉ s.data) : records (s ++ "\n") = [s] := by
  unfold records
  have hdata : (s ++ "\n").data = s.data ++ ['\n'] := by rw [String.data_append]
  rw [hdata, splitLinesAux_no_newline s.data h []]
  rfl

/-! ## Claims -/

/-- Claim C1, settled against the code (code bug): delivering an upsert of
files a.txt -> hi, b.txt -> yo and then run leaves the control file holding
only the record `run` — the run command overwrites the control file, erasing
both upsert records, and the upsert write itself ends in an extra empty
record (echo appends a newline to a string already ending in one).  A
listener reading the file after both deliveries observes only `run`, so the
claimed exactly-once, in-order observation of
`upsert a.txt hi`, `upsert b.txt yo`, `run` is not guaranteed by the code. -/
theorem upsert_then_run_erases_upsert_records :
    runShell "" (upsertCmdline [("a.txt", "hi"), ("b.txt", "yo")]) =
      some "upsert a.txt hi\nupsert b.txt yo\n\n" ∧
    records "upsert a.txt hi\nupsert b.txt yo\n\n" =
      ["upsert a.txt hi", "upsert b.txt yo", ""] ∧
    runSession "" [upsertCmdline [("a.txt", "hi"), ("b.txt", "yo")], startProgramCmdline] =
      some "run\n" ∧
    records "run\n" = ["run"] :=
  ⟨rfl, rfl, rfl, rfl⟩

/-- Claim C2, settled against the code (code bug): the encoder performs no
neutralization.  The input `a" b"` is interpolated verbatim into the shell
line and handed to the engine unchecked; its quote characters close and
reopen the shell quoting, so the payload splits into several shell words and
the record actually delivered is `input a b`, not `input a" b"` — the quotes
altered the command structure, and nothing failed before the command was
handed to the orchestrator. -/
theorem sendInput_quote_breaks_quoting :
    sendInputExec "a\" b\"" =
      ["sh", "-c", "echo \"input a\" b\"\" >> /commandListener/commands.txt"] ∧
    runShell "" (sendInputCmdline "a\" b\"") = some "input a b\n" ∧
    records "input a b\n" = ["input a b"] ∧
    ("input a b" : String) ≠ "input " ++ "a\" b\"" :=
  ⟨rfl, rfl, rfl, by decide⟩

/-- Claim C3 counterexample: registering a second container under an
already-bound session id does not fail with any DuplicateSession error — the
source calls Map.set unconditionally — and the existing binding is not left
unchanged: the lookup afterwards returns the new container. -/
theorem register_duplicate_counterexample :
    getContainer (registerContainer (registerContainer ([] : Registry Nat) "s" 1) "s" 2) "s" =
      some 2 ∧
    (some 2 : Option Nat) ≠ some 1 :=
  ⟨rfl, by decide⟩

/-- Claim C3 amended: registering under an already-bound id succeeds and
silently replaces the binding (JavaScript Map.set semantics) — the previous
container reference is dropped and a subsequent resolve returns the newly
registered container. -/
theorem register_duplicate_replaces {α : Type} (r : Registry α) (id : String) (c1 c2 : α) :
    getContainer (registerContainer (registerContainer r id c1) id c2) id = some c2 :=
  mapGet_mapSet_self _ id c2

/-- Claim C4: resolving an id that was never registered yields the failure
value (`undefined`, modelled as none — the UnknownSession signal,
distinguishable from any bound container), and resolving immediately after
registering returns exactly the registered container. -/
theorem resolve_unknown_and_register_resolve {α : Type} (r : Registry α) (id : String) (s : α) :
    (id ∉ r.map Prod.fst → getContainer r id = none) ∧
    getContainer (registerContainer r id s) id = some s :=
  ⟨mapGet_eq_none_of_not_mem r id, mapGet_mapSet_self r id s⟩

/-- Witness for C4 at a concrete registry, id and container. -/
theorem resolve_unknown_and_register_resolve_witness :
    getContainer ([] : Registry Nat) "x" = none ∧
    getContainer (registerContainer ([] : Registry Nat) "x" 7) "x" = some 7 :=
  ⟨(resolve_unknown_and_register_resolve ([] : Registry Nat) "x" 7).1 (by simp),
    (resolve_unknown_and_register_resolve ([] : Registry Nat) "x" 7).2⟩

/-- Claim C5, settled against the code (code bug): the engine request built
by startInteractiveSession is completely independent of the workspace
directory — the options carry image, listener entry command, Tty, open and
attached stdin/stdout/stderr, working directory and runtime, but no mount
configuration of any kind, so the workspace directory cannot be made visible
inside the sandbox.  This contradicts the source's own doc comment ("The
temporary directory to mount as workspace"); engine failures are also
propagated raw, with no ProvisionError wrapper anywhere in the source. -/
theorem provision_ignores_workspace_dir (runtime image tempDir1 tempDir2 : String) :
    startInteractiveSessionOptions runtime image tempDir1 =
      startInteractiveSessionOptions runtime image tempDir2 :=
  rfl

/-- Claim C6: when provisioning fails, startPythonSession surfaces the
provisioning error to its caller and returns the registry exactly as it was
— registerContainer is never reached, so no orphan entry is created. -/
theorem startPythonSession_error_no_orphan {α : Type} (r : Registry α) (sessionId e : String) :
    startPythonSession r sessionId (Except.error e) = (Except.error e, r) :=
  rfl

/-- Claim C7 counterexample: for the one-file mapping a.txt -> hi" x" the
single overwriting invocation does not deliver the record
`upsert a.txt hi" x"` — the interpolated quotes are consumed by the shell,
the payload splits into two echo words, and the control file ends up holding
the record `upsert a.txt hi x` instead.  So the claim does not hold for
every mapping of filenames to contents as stated. -/
theorem upsertFiles_quote_record_counterexample :
    runShell "" (upsertCmdline [("a.txt", "hi\" x\"")]) = some "upsert a.txt hi x\n\n" ∧
    records "upsert a.txt hi x\n\n" = ["upsert a.txt hi x", ""] ∧
    ("upsert a.txt hi x" : String) ≠ "upsert " ++ "a.txt" ++ " " ++ "hi\" x\"" :=
  ⟨rfl, rfl, by decide⟩

/-- Claim C7 amended: for every mapping, the encoded command string is one
newline-terminated record `upsert <filename> <content>` per file,
concatenated in the mapping's entry order, and the whole batch is handed
over as the single exec
`sh -c echo "<commandString>" > /commandListener/commands.txt`; when the
shell quoting takes the command string verbatim (no double quote, dollar,
backslash, backquote), that invocation replaces the control file with
exactly the encoded records followed by echo's final newline — for other
contents the shell alters the records on delivery, as the counterexample
shows. -/
theorem upsertFiles_encodes_and_overwrites (files : List (String × String)) (file : String) :
    upsertCommandString files =
      String.join (files.map fun fc => "upsert " ++ fc.1 ++ " " ++ fc.2 ++ "\n") ∧
    upsertFilesExec files = ["sh", "-c", upsertCmdline files] ∧
    (shellSafe (upsertCommandString files) = true →
      runShell file (upsertCmdline files) = some (upsertCommandString files ++ "\n")) :=
  ⟨upsertCommandString_eq_join files, rfl,
    fun hs => runShell_overwrite file (upsertCommandString files) hs⟩

/-- Witness for the amended C7 at the two-file mapping from the
specification, discharging the shell-verbatim hypothesis concretely. -/
theorem upsertFiles_encodes_and_overwrites_witness :
    upsertCommandString [("a.txt", "hi"), ("b.txt", "yo")] =
      String.join ([("a.txt", "hi"), ("b.txt", "yo")].map fun fc =>
        "upsert " ++ fc.1 ++ " " ++ fc.2 ++ "\n") ∧
    upsertFilesExec [("a.txt", "hi"), ("b.txt", "yo")] =
      ["sh", "-c", upsertCmdline [("a.txt", "hi"), ("b.txt", "yo")]] ∧
    runShell "" (upsertCmdline [("a.txt", "hi"), ("b.txt", "yo")]) =
      some (upsertCommandString [("a.txt", "hi"), ("b.txt", "yo")] ++ "\n") :=
  ⟨(upsertFiles_encodes_and_overwrites [("a.txt", "hi"), ("b.txt", "yo")] "").1,
    (upsertFiles_encodes_and_overwrites [("a.txt", "hi"), ("b.txt", "yo")] "").2.1,
    (upsertFiles_encodes_and_overwrites [("a.txt", "hi"), ("b.txt", "yo")] "").2.2 (by decide)⟩

/-- Claim C8 counterexample: for the input `4"2"` the record actually
appended is `input 42`, not `input 4"2"` — the interpolated quotes are
consumed by the shell — so the claim does not hold for every input text as
stated. -/
theorem sendInput_quote_record_counterexample :
    runShell "run\n" (sendInputCmdline "4\"2\"") = some "run\ninput 42\n" ∧
    records "run\ninput 42\n" = ["run", "input 42"] ∧
    ("input 42" : String) ≠ "input " ++ "4\"2\"" :=
  ⟨rfl, rfl, by decide⟩

/-- Claim C8 amended: for every input text that the shell quoting takes
verbatim (no quote, dollar, backslash, backquote) and that contains no
newline, sendInput appends exactly one record `input <text>` to the control
file: the new contents are the old contents — a prefix, so every previously
written record is unchanged — followed by that single record. -/
theorem sendInput_appends_one_record (file input : String)
    (hs : shellSafe input = true) (hn : '\n' ∉ input.data) :
    runShell file (sendInputCmdline input) = some (file ++ ("input " ++ input ++ "\n")) ∧
    records ("input " ++ input ++ "\n") = ["input " ++ input] := by
  have hsafe : shellSafe ("input " ++ input) = true := by
    unfold shellSafe at hs ⊢
    rw [String.data_append, List.all_append, hs, Bool.and_true]
    decide
  constructor
  · rw [sendInputCmdline_shape]
    exact runShell_append file ("input " ++ input) hsafe
  · have hn2 : '\n' ∉ ("input " ++ input).data := by
      rw [String.data_append]
      intro hmem
      rcases List.mem_append.mp hmem with h1 | h2
      · exact absurd h1 (by decide)
      · exact hn h2
    exact records_single ("input " ++ input) hn2

/-- Witness for the amended C8 at the specification's input "42" on a
control file already holding the record run. -/
theorem sendInput_appends_one_record_witness :
    runShell "run\n" (sendInputCmdline "42") = some ("run\n" ++ ("input " ++ "42" ++ "\n")) ∧
    records ("input " ++ "42" ++ "\n") = ["input " ++ "42"] :=
  sendInput_appends_one_record "run\n" "42" (by decide) (by decide)

/-- Claim C10: calling upsertFiles with an empty mapping builds the empty
command string, still issues its single shell invocation
`echo "" > /commandListener/commands.txt`, and that invocation overwrites
the control file with a single blank line: whatever records were previously
there, the file afterwards is exactly a newline, whose only record is
empty. -/
theorem upsertFiles_empty_overwrites (prior : String) :
    upsertCommandString [] = "" ∧
    upsertFilesExec [] = ["sh", "-c", "echo \"\" > /commandListener/commands.txt"] ∧
    runShell prior (upsertCmdline []) = some "\n" ∧
    records "\n" = [""] :=
  ⟨rfl, rfl, rfl, rfl⟩

end ExecutionWs
